import Mathlib

/-!
Verification of the generics module of a Rust syntax library
(`src/generics.rs`): the `Generics` data model, its recursive-descent
parsers (`Synom` impls) and its four printing views (`ToTokens` impls:
declaration, impl-site, type-use-site, turbofish).

The token cursor, the delimited-list container and the opaque
sub-grammars (attributes, types, trait references) live outside the
module under verification; they are modelled from the specification's
description of their contracts.  Everything else is translated
line-by-line from `src/generics.rs`.
-/

namespace Syn

/-- Modelled from the spec: the pre-tokenized input alphabet supplied by the
external tokenizer.  Punctuation and keywords are bare constructors; the
opaque sub-grammars (lifetime tokens, identifiers, attributes) carry their
payload as a string.  Spans are not modelled. -/
inductive Tok where
  | lt
  | gt
  | comma
  | colon
  | plus
  | question
  | eqTok
  | pathSep
  | kwWhere
  | kwFor
  | lifetimeTok (name : String)
  | identTok (name : String)
  | attrTok (name : String)
deriving DecidableEq

/-- A parser over the token cursor: consumes a prefix of the token list and
either fails (`none`, the cursor restored by the caller) or returns the
parsed value with the remaining tokens. -/
def P (α : Type) : Type := List Tok → Option (α × List Tok)

/-- `punct!(t)` / `keyword!(t)`: consume exactly the token `t`. -/
def punct (t : Tok) : P Unit := fun ts =>
  match ts with
  | t2 :: rest => if t2 = t then some ((), rest) else none
  | [] => none

/-- `option!(p)`: try `p`; on failure succeed with `none` consuming nothing. -/
def popt {α : Type} (p : P α) : P (Option α) := fun ts =>
  match p ts with
  | some (a, rest) => some (some a, rest)
  | none => some (none, ts)

/-- `cond!(b, p)`: when `b` run `p` (propagating failure) and wrap the result
in `some`; when `¬b` succeed with `none` consuming nothing. -/
def pcond {α : Type} (b : Bool) (p : P α) : P (Option α) := fun ts =>
  if b then
    match p ts with
    | some (a, rest) => some (some a, rest)
    | none => none
  else some (none, ts)

/-- `many0!(p)`: run `p` as many times as it succeeds (fuelled by the input
length; every item parser in this module consumes at least one token). -/
def many0Aux {α : Type} (p : P α) : Nat → P (List α)
  | 0 => fun ts => some ([], ts)
  | n + 1 => fun ts =>
    match p ts with
    | none => some ([], ts)
    | some (a, rest) =>
      match many0Aux p n rest with
      | some (as, rest2) => some (a :: as, rest2)
      | none => some ([a], rest)

/-- `many0!(p)` at fuel `length + 1`. -/
def many0 {α : Type} (p : P α) : P (List α) := fun ts => many0Aux p (ts.length + 1) ts

/-- Modelled from the spec: the delimited-list container — ordered
(item, optional delimiter) pairs; the `Bool` records whether the item is
followed by its delimiter.  The delimiter token itself is fixed by the
context of use (comma or plus). -/
structure Delimited (α : Type) where
  pairs : List (α × Bool)
deriving DecidableEq

/-- Modelled from the spec: the empty list, `Delimited::new` / `Default`. -/
def Delimited.new {α : Type} : Delimited α := ⟨[]⟩

/-- Modelled from the spec: `is_empty`. -/
def Delimited.is_empty {α : Type} (d : Delimited α) : Bool := d.pairs.isEmpty

/-- Modelled from the spec: `trailing_delim` — non-empty and the last pair
has a delimiter. -/
def Delimited.trailing_delim {α : Type} (d : Delimited α) : Bool :=
  match d.pairs.getLast? with
  | some (_, b) => b
  | none => false

/-- Modelled from the spec: `empty_or_trailing` — empty OR `trailing_delim`. -/
def Delimited.empty_or_trailing {α : Type} (d : Delimited α) : Bool :=
  d.is_empty || d.trailing_delim

/-- Modelled from the spec: loop of `parse_terminated` — parse item/delimiter
pairs until the item parser no longer matches (e.g. the enclosing closing
bracket appears); the last delimiter is optional; zero items is success. -/
def parseTerminatedAux {α : Type} (item : P α) (delim : Tok) : Nat → P (List (α × Bool))
  | 0 => fun _ => none
  | n + 1 => fun ts =>
    match item ts with
    | none => some ([], ts)
    | some (a, ts1) =>
      match punct delim ts1 with
      | none => some ([(a, false)], ts1)
      | some (_, ts2) =>
        match parseTerminatedAux item delim n ts2 with
        | some (rest, ts3) => some ((a, true) :: rest, ts3)
        | none => none

/-- Modelled from the spec: `Delimited::parse_terminated`. -/
def Delimited.parse_terminated {α : Type} (item : P α) (delim : Tok) : P (Delimited α) :=
  fun ts =>
    match parseTerminatedAux item delim (ts.length + 1) ts with
    | some (ps, rest) => some (⟨ps⟩, rest)
    | none => none

/-- Modelled from the spec: tail loop of `parse_separated` — after one item,
parse while a delimiter-then-item match succeeds; no trailing delimiter is
ever recorded. -/
def parseSepTailAux {α : Type} (item : P α) (delim : Tok) (a : α) : Nat → P (List (α × Bool))
  | 0 => fun _ => none
  | n + 1 => fun ts =>
    match punct delim ts with
    | none => some ([(a, false)], ts)
    | some (_, ts1) =>
      match item ts1 with
      | none => some ([(a, false)], ts)
      | some (b, ts2) =>
        match parseSepTailAux item delim b n ts2 with
        | some (rest, ts3) => some ((a, true) :: rest, ts3)
        | none => none

/-- Modelled from the spec: `Delimited::parse_separated` — zero items is
success. -/
def Delimited.parse_separated {α : Type} (item : P α) (delim : Tok) : P (Delimited α) :=
  fun ts =>
    match item ts with
    | none => some (Delimited.new, ts)
    | some (a, ts1) =>
      match parseSepTailAux item delim a (ts1.length + 1) ts1 with
      | some (ps, rest) => some (⟨ps⟩, rest)
      | none => none

/-- Modelled from the spec: `Delimited::parse_separated_nonempty` — fails if
zero items were parsed. -/
def Delimited.parse_separated_nonempty {α : Type} (item : P α) (delim : Tok) : P (Delimited α) :=
  fun ts =>
    match item ts with
    | none => none
    | some (a, ts1) =>
      match parseSepTailAux item delim a (ts1.length + 1) ts1 with
      | some (ps, rest) => some (⟨ps⟩, rest)
      | none => none

/-- Modelled from the spec: an attribute, an opaque external production. -/
structure Attribute where
  name : String
deriving DecidableEq

/-- Modelled from the spec: a lifetime token, a purely syntactic token class. -/
structure Lifetime where
  ident : String
deriving DecidableEq

/-- Modelled from the spec: the opaque external `Type` production, consumed
as a unit. -/
structure Ty where
  path : String
deriving DecidableEq

/-- Modelled from the spec: the opaque external trait-reference production
(`PolyTraitRef`), consumed as a unit. -/
structure PolyTraitRef where
  path : String
deriving DecidableEq

/-- `TraitBoundModifier` from `src/generics.rs`: `None`, or `Maybe` for
`?Sized`-style bounds (the `?` token carries no data here). -/
inductive TraitBoundModifier where
  | None
  | Maybe
deriving DecidableEq

/-- `TypeParamBound` from `src/generics.rs`. -/
inductive TypeParamBound where
  | Trait (poly : PolyTraitRef) (modifier : TraitBoundModifier)
  | Region (lifetime : Lifetime)
deriving DecidableEq

/-- `LifetimeDef` from `src/generics.rs`: a lifetime definition,
e.g. `'a: 'b+'c+'d`. -/
structure LifetimeDef where
  attrs : List Attribute
  lifetime : Lifetime
  colon_token : Option Unit
  bounds : Delimited Lifetime
deriving DecidableEq

/-- `LifetimeDef::new` from `src/generics.rs`. -/
def LifetimeDef.new (lifetime : Lifetime) : LifetimeDef :=
  { attrs := [], lifetime := lifetime, colon_token := none, bounds := Delimited.new }

/-- `TypeParam` from `src/generics.rs`: a generic type parameter,
e.g. `T: Into<String>`. -/
structure TypeParam where
  attrs : List Attribute
  ident : String
  colon_token : Option Unit
  bounds : Delimited TypeParamBound
  eq_token : Option Unit
  default : Option Ty
deriving DecidableEq

/-- `From<Ident> for TypeParam` from `src/generics.rs`. -/
def TypeParam.fromIdent (ident : String) : TypeParam :=
  { attrs := [], ident := ident, colon_token := none, bounds := Delimited.new,
    eq_token := none, default := none }

/-- `BoundLifetimes` from `src/generics.rs`: `for<'a, 'b, 'c>`. -/
structure BoundLifetimes where
  for_token : Unit
  lt_token : Unit
  lifetimes : Delimited LifetimeDef
  gt_token : Unit
deriving DecidableEq

/-- `WhereBoundPredicate` from `src/generics.rs`. -/
structure WhereBoundPredicate where
  bound_lifetimes : Option BoundLifetimes
  bounded_ty : Ty
  colon_token : Unit
  bounds : Delimited TypeParamBound
deriving DecidableEq

/-- `WhereRegionPredicate` from `src/generics.rs`. -/
structure WhereRegionPredicate where
  lifetime : Lifetime
  colon_token : Option Unit
  bounds : Delimited Lifetime
deriving DecidableEq

/-- `WhereEqPredicate` from `src/generics.rs` (unsupported by the parser). -/
structure WhereEqPredicate where
  lhs_ty : Ty
  eq_token : Unit
  rhs_ty : Ty
deriving DecidableEq

/-- `WherePredicate` from `src/generics.rs`. -/
inductive WherePredicate where
  | BoundPredicate (p : WhereBoundPredicate)
  | RegionPredicate (p : WhereRegionPredicate)
  | EqPredicate (p : WhereEqPredicate)
deriving DecidableEq

/-- `WhereClause` from `src/generics.rs`. -/
structure WhereClause where
  where_token : Option Unit
  predicates : Delimited WherePredicate
deriving DecidableEq

/-- `Default for WhereClause` (also `WhereClause::none`). -/
def WhereClause.default : WhereClause := ⟨none, Delimited.new⟩

/-- `Generics` from `src/generics.rs`. -/
structure Generics where
  lt_token : Option Unit
  gt_token : Option Unit
  lifetimes : Delimited LifetimeDef
  ty_params : Delimited TypeParam
  where_clause : WhereClause
deriving DecidableEq

/-- `Default for Generics`. -/
def Generics.default : Generics :=
  ⟨none, none, Delimited.new, Delimited.new, WhereClause.default⟩

/-- Modelled from the spec: `Attribute::parse_outer`, the external
attribute-list sub-parser, consuming a single attribute token. -/
def Attribute.parse_outer : P Attribute := fun ts =>
  match ts with
  | Tok.attrTok s :: rest => some (⟨s⟩, rest)
  | _ => none

/-- Modelled from the spec: the lifetime-token parser (`syn!(Lifetime)`). -/
def Lifetime.parse : P Lifetime := fun ts =>
  match ts with
  | Tok.lifetimeTok s :: rest => some (⟨s⟩, rest)
  | _ => none

/-- Modelled from the spec: the identifier parser (`syn!(Ident)`). -/
def Ident.parse : P String := fun ts =>
  match ts with
  | Tok.identTok s :: rest => some (s, rest)
  | _ => none

/-- Modelled from the spec: the opaque external `Type` sub-parser
(`syn!(Type)`), consuming a single path identifier. -/
def Ty.parse : P Ty := fun ts =>
  match ts with
  | Tok.identTok s :: rest => some (⟨s⟩, rest)
  | _ => none

/-- Modelled from the spec: the opaque external trait-reference sub-parser
(`syn!(PolyTraitRef)`), consuming a single path identifier. -/
def PolyTraitRef.parse : P PolyTraitRef := fun ts =>
  match ts with
  | Tok.identTok s :: rest => some (⟨s⟩, rest)
  | _ => none

/-- `Synom for LifetimeDef` in `src/generics.rs`: attributes, lifetime,
optional colon, and — only when the colon is present — a non-empty
separated bound list. -/
def LifetimeDef.parse : P LifetimeDef := fun ts =>
  match many0 Attribute.parse_outer ts with
  | none => none
  | some (attrs, ts1) =>
    match Lifetime.parse ts1 with
    | none => none
    | some (life, ts2) =>
      match popt (punct Tok.colon) ts2 with
      | none => none
      | some (colon, ts3) =>
        match pcond colon.isSome
                (Delimited.parse_separated_nonempty Lifetime.parse Tok.plus) ts3 with
        | none => none
        | some (bounds, ts4) =>
          some ({ attrs := attrs, lifetime := life,
                  bounds := bounds.getD Delimited.new,
                  colon_token := colon.map fun _ => () }, ts4)

/-- `Synom for BoundLifetimes` in `src/generics.rs`:
`keyword!(for) >> punct!(<) >> parse_terminated >> punct!(>)`. -/
def BoundLifetimes.parse : P BoundLifetimes := fun ts =>
  match punct Tok.kwFor ts with
  | none => none
  | some (_, ts1) =>
    match punct Tok.lt ts1 with
    | none => none
    | some (_, ts2) =>
      match Delimited.parse_terminated LifetimeDef.parse Tok.comma ts2 with
      | none => none
      | some (lifetimes, ts3) =>
        match punct Tok.gt ts3 with
        | none => none
        | some (_, ts4) =>
          some ({ for_token := (), lt_token := (),
                  lifetimes := lifetimes, gt_token := () }, ts4)

/-- `Synom for TypeParamBound` in `src/generics.rs`: ordered alternatives —
`?` + trait reference, bare lifetime, or trait reference alone. -/
def TypeParamBound.parse : P TypeParamBound := fun ts =>
  match (match punct Tok.question ts with
         | none => none
         | some (_, ts1) =>
           match PolyTraitRef.parse ts1 with
           | none => none
           | some (poly, ts2) =>
             some (TypeParamBound.Trait poly TraitBoundModifier.Maybe, ts2)) with
  | some r => some r
  | none =>
    match Lifetime.parse ts with
    | some (life, ts1) => some (TypeParamBound.Region life, ts1)
    | none =>
      match PolyTraitRef.parse ts with
      | some (poly, ts1) => some (TypeParamBound.Trait poly TraitBoundModifier.None, ts1)
      | none => none

/-- `= type` tail of `Synom for TypeParam` in `src/generics.rs`. -/
def TypeParam.defaultPart : P (Unit × Ty) := fun ts =>
  match punct Tok.eqTok ts with
  | none => none
  | some (_, ts1) =>
    match Ty.parse ts1 with
    | none => none
    | some (ty, ts2) => some (((), ty), ts2)

/-- `Synom for TypeParam` in `src/generics.rs`: attributes, identifier,
optional colon gating a non-empty separated bound list, then an optional
`= type` default. -/
def TypeParam.parse : P TypeParam := fun ts =>
  match many0 Attribute.parse_outer ts with
  | none => none
  | some (attrs, ts1) =>
    match Ident.parse ts1 with
    | none => none
    | some (id, ts2) =>
      match popt (punct Tok.colon) ts2 with
      | none => none
      | some (colon, ts3) =>
        match pcond colon.isSome
                (Delimited.parse_separated_nonempty TypeParamBound.parse Tok.plus) ts3 with
        | none => none
        | some (bounds, ts4) =>
          match popt TypeParam.defaultPart ts4 with
          | none => none
          | some (dflt, ts5) =>
            some ({ attrs := attrs, ident := id,
                    bounds := bounds.getD Delimited.new,
                    colon_token := colon,
                    eq_token := dflt.map fun _ => (),
                    default := dflt.map fun d => d.2 }, ts5)

/-- Bracketed branch of `Synom for Generics` in `src/generics.rs`:
`punct!(<) >> parse_terminated >> cond!(empty-or-trailing, parse_terminated)
>> punct!(>)`. -/
def Generics.bracketed : P Generics := fun ts =>
  match punct Tok.lt ts with
  | none => none
  | some (_, ts1) =>
    match Delimited.parse_terminated LifetimeDef.parse Tok.comma ts1 with
    | none => none
    | some (lifetimes, ts2) =>
      match pcond (lifetimes.is_empty || lifetimes.trailing_delim)
              (Delimited.parse_terminated TypeParam.parse Tok.comma) ts2 with
      | none => none
      | some (ty_params, ts3) =>
        match punct Tok.gt ts3 with
        | none => none
        | some (_, ts4) =>
          some ({ lt_token := some (), gt_token := some (),
                  lifetimes := lifetimes,
                  ty_params := ty_params.getD Delimited.new,
                  where_clause := WhereClause.default }, ts4)

/-- `Synom for Generics` in `src/generics.rs`: the bracketed branch,
`alt`-ed with `epsilon!()` mapped to the all-default value. -/
def Generics.parse : P Generics := fun ts =>
  match Generics.bracketed ts with
  | some r => some r
  | none => some (Generics.default, ts)

/-- First alternative of `Synom for WherePredicate` in `src/generics.rs`:
lifetime, optional colon, and — only when the colon is present — a
(possibly empty) separated bound list, making a `RegionPredicate`. -/
def WherePredicate.regionBranch : P WherePredicate := fun ts =>
  match Lifetime.parse ts with
  | none => none
  | some (life, ts1) =>
    match popt (punct Tok.colon) ts1 with
    | none => none
    | some (colon, ts2) =>
      match pcond colon.isSome (Delimited.parse_separated Lifetime.parse Tok.plus) ts2 with
      | none => none
      | some (bounds, ts3) =>
        some (WherePredicate.RegionPredicate
          { lifetime := life, bounds := bounds.getD Delimited.new,
            colon_token := colon }, ts3)

/-- Second alternative of `Synom for WherePredicate` in `src/generics.rs`:
optional universal binder, bounded type, mandatory colon and a non-empty
separated bound list, making a `BoundPredicate`. -/
def WherePredicate.boundBranch : P WherePredicate := fun ts =>
  match popt BoundLifetimes.parse ts with
  | none => none
  | some (bl, ts1) =>
    match Ty.parse ts1 with
    | none => none
    | some (ty, ts2) =>
      match punct Tok.colon ts2 with
      | none => none
      | some (_, ts3) =>
        match Delimited.parse_separated_nonempty TypeParamBound.parse Tok.plus ts3 with
        | none => none
        | some (bounds, ts4) =>
          some (WherePredicate.BoundPredicate
            { bound_lifetimes := bl, bounded_ty := ty, colon_token := (),
              bounds := bounds }, ts4)

/-- `Synom for WherePredicate` in `src/generics.rs`: the two alternatives
tried in order; no alternative builds an `EqPredicate`. -/
def WherePredicate.parse : P WherePredicate := fun ts =>
  match WherePredicate.regionBranch ts with
  | some r => some r
  | none => WherePredicate.boundBranch ts

/-- `Synom for WhereClause` in `src/generics.rs`: `where` keyword followed by
a terminated predicate list, `alt`-ed with `epsilon!()` mapped to the
default clause. -/
def WhereClause.parse : P WhereClause := fun ts =>
  match (match punct Tok.kwWhere ts with
         | none => none
         | some (_, ts1) =>
           match Delimited.parse_terminated WherePredicate.parse Tok.comma ts1 with
           | none => none
           | some (preds, ts2) =>
             some (({ where_token := some (), predicates := preds } : WhereClause), ts2)) with
  | some r => some r
  | none => some (WhereClause.default, ts)

/-- `TypeParamBound::description` in `src/generics.rs` (the string is
spelled exactly as in the source). -/
def TypeParamBound.description : Option String := some "type parameter buond"

/-- `WhereClause::description` in `src/generics.rs`. -/
def WhereClause.description : Option String := some "where clause"

/-- `TokensOrDefault` as used in `src/generics.rs`: print the stored token
when present, otherwise a synthesized default token — with spans not
modelled, both arms emit the same token. -/
def tokensOrDefault (o : Option Unit) (t : Tok) : List Tok :=
  match o with
  | some _ => [t]
  | none => [t]

/-- `tokens.append_all(self.attrs.outer())`: print the outer attributes in
order (every modelled attribute is an outer attribute). -/
def outerAttrsTokens (attrs : List Attribute) : List Tok :=
  attrs.foldr (fun a acc => Tok.attrTok a.name :: acc) []

/-- `ToTokens for Lifetime` (external; the token prints itself). -/
def Lifetime.toTokens (l : Lifetime) : List Tok := [Tok.lifetimeTok l.ident]

/-- `ToTokens for Type` (external opaque production). -/
def Ty.toTokens (t : Ty) : List Tok := [Tok.identTok t.path]

/-- `ToTokens for PolyTraitRef` (external opaque production). -/
def PolyTraitRef.toTokens (p : PolyTraitRef) : List Tok := [Tok.identTok p.path]

/-- `ToTokens for TraitBoundModifier` in `src/generics.rs`. -/
def TraitBoundModifier.toTokens (m : TraitBoundModifier) : List Tok :=
  match m with
  | TraitBoundModifier.None => []
  | TraitBoundModifier.Maybe => [Tok.question]

/-- `ToTokens for TypeParamBound` in `src/generics.rs`. -/
def TypeParamBound.toTokens (b : TypeParamBound) : List Tok :=
  match b with
  | TypeParamBound.Region lifetime => lifetime.toTokens
  | TypeParamBound.Trait trait_ref modifier => modifier.toTokens ++ trait_ref.toTokens

/-- Modelled from the spec: `ToTokens for Delimited` — each item followed by
its delimiter when that pair records one. -/
def Delimited.toTokens {α : Type} (itemTokens : α → List Tok) (delim : Tok)
    (d : Delimited α) : List Tok :=
  d.pairs.foldr (fun p acc => itemTokens p.1 ++ (if p.2 then [delim] else []) ++ acc) []

/-- `ToTokens for LifetimeDef` in `src/generics.rs`: attributes, lifetime,
then colon and bounds only if the bound list is non-empty. -/
def LifetimeDef.toTokens (d : LifetimeDef) : List Tok :=
  outerAttrsTokens d.attrs ++ d.lifetime.toTokens ++
  (if d.bounds.is_empty then []
   else tokensOrDefault d.colon_token Tok.colon ++
        Delimited.toTokens Lifetime.toTokens Tok.plus d.bounds)

/-- `ToTokens for TypeParam` in `src/generics.rs`: attributes, identifier,
colon and bounds only if non-empty, then `=` and the default only if the
default is present. -/
def TypeParam.toTokens (tp : TypeParam) : List Tok :=
  outerAttrsTokens tp.attrs ++ [Tok.identTok tp.ident] ++
  (if tp.bounds.is_empty then []
   else tokensOrDefault tp.colon_token Tok.colon ++
        Delimited.toTokens TypeParamBound.toTokens Tok.plus tp.bounds) ++
  (match tp.default with
   | some ty => tokensOrDefault tp.eq_token Tok.eqTok ++ ty.toTokens
   | none => [])

/-- `empty_normal_generics` in `src/generics.rs`: true if the generics
object has no lifetimes or ty_params. -/
def empty_normal_generics (g : Generics) : Bool :=
  g.lifetimes.is_empty && g.ty_params.is_empty

/-- `maybe_add_lifetime_params_comma` in `src/generics.rs`: append a comma
when the lifetime list is not empty-or-trailing and the type-param list is
non-empty. -/
def maybe_add_lifetime_params_comma (tokens : List Tok) (g : Generics) : List Tok :=
  if !g.lifetimes.empty_or_trailing && !g.ty_params.is_empty then
    tokens ++ [Tok.comma]
  else tokens

/-- `ToTokens for Generics` in `src/generics.rs` (the declaration view). -/
def Generics.toTokens (g : Generics) : List Tok :=
  if empty_normal_generics g then []
  else
    let t1 := tokensOrDefault g.lt_token Tok.lt
    let t2 := t1 ++ Delimited.toTokens LifetimeDef.toTokens Tok.comma g.lifetimes
    let t3 := maybe_add_lifetime_params_comma t2 g
    let t4 := t3 ++ Delimited.toTokens TypeParam.toTokens Tok.comma g.ty_params
    t4 ++ tokensOrDefault g.gt_token Tok.gt

/-- Loop body of `ToTokens for ImplGenerics` in `src/generics.rs`: a type
parameter with the default left off. -/
def ImplGenerics.paramTokens (item : TypeParam) : List Tok :=
  outerAttrsTokens item.attrs ++ [Tok.identTok item.ident] ++
  (if item.bounds.is_empty then []
   else tokensOrDefault item.colon_token Tok.colon ++
        Delimited.toTokens TypeParamBound.toTokens Tok.plus item.bounds)

/-- Type-parameter loop of `ToTokens for ImplGenerics`: each param (default
left off) followed by its delimiter when present. -/
def ImplGenerics.tyParamsTokens (g : Generics) : List Tok :=
  g.ty_params.pairs.foldr
    (fun p acc => ImplGenerics.paramTokens p.1 ++ (if p.2 then [Tok.comma] else []) ++ acc) []

/-- `ToTokens for ImplGenerics` in `src/generics.rs` (the impl-site view of
the underlying `Generics`). -/
def ImplGenerics.toTokens (g : Generics) : List Tok :=
  if empty_normal_generics g then []
  else
    let t1 := tokensOrDefault g.lt_token Tok.lt
    let t2 := t1 ++ Delimited.toTokens LifetimeDef.toTokens Tok.comma g.lifetimes
    let t3 := maybe_add_lifetime_params_comma t2 g
    let t4 := t3 ++ ImplGenerics.tyParamsTokens g
    t4 ++ tokensOrDefault g.gt_token Tok.gt

/-- Lifetime loop of `ToTokens for TypeGenerics` in `src/generics.rs`: bare
lifetime names (bounds and attributes left off), each followed by its
delimiter when present. -/
def TypeGenerics.lifetimesTokens (g : Generics) : List Tok :=
  g.lifetimes.pairs.foldr
    (fun p acc => p.1.lifetime.toTokens ++ (if p.2 then [Tok.comma] else []) ++ acc) []

/-- Type-parameter loop of `ToTokens for TypeGenerics`: bare identifiers
(defaults left off), each followed by its delimiter when present. -/
def TypeGenerics.tyParamsTokens (g : Generics) : List Tok :=
  g.ty_params.pairs.foldr
    (fun p acc => [Tok.identTok p.1.ident] ++ (if p.2 then [Tok.comma] else []) ++ acc) []

/-- `ToTokens for TypeGenerics` in `src/generics.rs` (the type-use-site view
of the underlying `Generics`). -/
def TypeGenerics.toTokens (g : Generics) : List Tok :=
  if empty_normal_generics g then []
  else
    let t1 := tokensOrDefault g.lt_token Tok.lt
    let t2 := t1 ++ TypeGenerics.lifetimesTokens g
    let t3 := maybe_add_lifetime_params_comma t2 g
    let t4 := t3 ++ TypeGenerics.tyParamsTokens g
    t4 ++ tokensOrDefault g.gt_token Tok.gt

/-- `ToTokens for Turbofish` in `src/generics.rs`: `::` then the
type-use-site view, or nothing at all when the generics are empty. -/
def Turbofish.toTokens (g : Generics) : List Tok :=
  if !empty_normal_generics g then
    Tok.pathSep :: TypeGenerics.toTokens g
  else []

/-- `ToTokens for BoundLifetimes` in `src/generics.rs`. -/
def BoundLifetimes.toTokens (b : BoundLifetimes) : List Tok :=
  [Tok.kwFor, Tok.lt] ++
  Delimited.toTokens LifetimeDef.toTokens Tok.comma b.lifetimes ++ [Tok.gt]

/-- `ToTokens for WhereRegionPredicate` in `src/generics.rs`: lifetime, then
colon and bounds only if the bound list is non-empty. -/
def WhereRegionPredicate.toTokens (p : WhereRegionPredicate) : List Tok :=
  p.lifetime.toTokens ++
  (if p.bounds.is_empty then []
   else tokensOrDefault p.colon_token Tok.colon ++
        Delimited.toTokens Lifetime.toTokens Tok.plus p.bounds)

/-- `ToTokens for WhereBoundPredicate` in `src/generics.rs`. -/
def WhereBoundPredicate.toTokens (p : WhereBoundPredicate) : List Tok :=
  (match p.bound_lifetimes with
   | some bl => bl.toTokens
   | none => []) ++
  p.bounded_ty.toTokens ++ [Tok.colon] ++
  Delimited.toTokens TypeParamBound.toTokens Tok.plus p.bounds

/-- `ToTokens for WhereEqPredicate` in `src/generics.rs`. -/
def WhereEqPredicate.toTokens (p : WhereEqPredicate) : List Tok :=
  p.lhs_ty.toTokens ++ [Tok.eqTok] ++ p.rhs_ty.toTokens

/-- `ToTokens for WherePredicate` (dispatch generated by
`ast_enum_of_structs!`). -/
def WherePredicate.toTokens (p : WherePredicate) : List Tok :=
  match p with
  | WherePredicate.BoundPredicate q => q.toTokens
  | WherePredicate.RegionPredicate q => q.toTokens
  | WherePredicate.EqPredicate q => q.toTokens

/-- `ToTokens for WhereClause` in `src/generics.rs`: emit the keyword and
predicates only when the predicate list is non-empty. -/
def WhereClause.toTokens (wc : WhereClause) : List Tok :=
  if !wc.predicates.is_empty then
    tokensOrDefault wc.where_token Tok.kwWhere ++
    Delimited.toTokens WherePredicate.toTokens Tok.comma wc.predicates
  else []

/-- Re-parse the declaration-view print of a `Generics` value, keeping only
the parsed value. -/
def printReparse (g : Generics) : Option Generics :=
  (Generics.parse (Generics.toTokens g)).map Prod.fst

/-- The full round trip of the round-trip property: parse, print the
declaration view, re-parse, and compare structurally (also checking that
re-parsing consumes the whole output). -/
def parsePrintParse (ts : List Tok) : Bool :=
  match Generics.parse ts with
  | some (g, _) =>
    match Generics.parse (Generics.toTokens g) with
    | some (g2, rest) => decide (g2 = g) && rest.isEmpty
    | none => false
  | none => false

/-- The `Generics` value produced by parsing `<>`: bracket tokens present,
both lists empty, default where-clause. -/
def emptyBracketGenerics : Generics :=
  ⟨some (), some (), Delimited.new, Delimited.new, WhereClause.default⟩

/-- The synthetic delimiter of the shared printing rule: one comma exactly
when the lifetime list is non-empty without a trailing delimiter and the
type-param list is non-empty. -/
def syntheticComma (g : Generics) : List Tok :=
  if g.lifetimes.is_empty = false ∧ g.lifetimes.trailing_delim = false
      ∧ g.ty_params.is_empty = false then [Tok.comma]
  else []

/-- The default tail of the `TypeParam` declaration print: `=` and the
default type when a default is present. -/
def TypeParam.defaultTokens (tp : TypeParam) : List Tok :=
  match tp.default with
  | some ty => Tok.eqTok :: ty.toTokens
  | none => []

/-- A `Generics` value `<'a, T>`: one lifetime with no trailing delimiter
followed by one type parameter. -/
def exampleLifetimeTyGenerics : Generics :=
  ⟨some (), some (), ⟨[(LifetimeDef.new ⟨"a"⟩, false)]⟩,
    ⟨[(TypeParam.fromIdent "T", false)]⟩, WhereClause.default⟩

/-- A `Generics` value with empty parameter lists but a non-empty
where-clause whose keyword is present. -/
def whereOnlyGenerics : Generics :=
  ⟨none, none, Delimited.new, Delimited.new,
    ⟨some (), ⟨[(WherePredicate.RegionPredicate ⟨⟨"a"⟩, none, Delimited.new⟩, false)]⟩⟩⟩

/-- A directly constructed `LifetimeDef` violating the parser invariant:
colon token present, bound list empty. -/
def colonNoBoundsLifetimeDef : LifetimeDef :=
  ⟨[], ⟨"a"⟩, some (), Delimited.new⟩

/-- `TokensOrDefault` emits the same token whether the stored option is
present or absent (spans are not modelled). -/
theorem tokensOrDefault_eq (o : Option Unit) (t : Tok) : tokensOrDefault o t = [t] := by
  cases o <;> rfl

/-- `punct` succeeds exactly on the expected head token. -/
theorem punct_some {t : Tok} {ts rest : List Tok} {u : Unit}
    (h : punct t ts = some (u, rest)) : ts = t :: rest := by
  cases ts with
  | nil => simp [punct] at h
  | cons a as =>
    by_cases hat : a = t
    · subst hat
      simp [punct] at h
      simp [h]
    · simp [punct, hat] at h

/-- `many0` of a parser that fails immediately returns the empty list. -/
theorem many0_none {α : Type} {p : P α} {ts : List Tok} (h : p ts = none) :
    many0 p ts = some ([], ts) := by
  simp [many0, many0Aux, h]

/-- The tail loop of the separated-list modes never returns an empty list. -/
theorem parseSepTailAux_ne_nil {α : Type} {item : P α} {delim : Tok} :
    ∀ {n : Nat} {a : α} {ts : List Tok} {ps : List (α × Bool)} {rest : List Tok},
      parseSepTailAux item delim a n ts = some (ps, rest) → ps ≠ [] := by
  intro n
  induction n with
  | zero => intro a ts ps rest h; simp [parseSepTailAux] at h
  | succ n ih =>
    intro a ts ps rest h
    simp only [parseSepTailAux] at h
    cases h1 : punct delim ts with
    | none =>
      simp only [h1] at h
      obtain ⟨h2, h3⟩ := Prod.mk.injEq .. ▸ Option.some.inj h
      simp [← h2]
    | some pr =>
      obtain ⟨u, ts1⟩ := pr
      simp only [h1] at h
      cases h2 : item ts1 with
      | none =>
        simp only [h2] at h
        obtain ⟨h3, h4⟩ := Prod.mk.injEq .. ▸ Option.some.inj h
        simp [← h3]
      | some pr2 =>
        obtain ⟨b, ts2⟩ := pr2
        simp only [h2] at h
        cases h3 : parseSepTailAux item delim b n ts2 with
        | none => simp only [h3] at h; cases h
        | some pr3 =>
          obtain ⟨ps2, ts3⟩ := pr3
          simp only [h3] at h
          obtain ⟨h4, h5⟩ := Prod.mk.injEq .. ▸ Option.some.inj h
          simp [← h4]

/-- `parse_separated_nonempty` only ever produces non-empty lists. -/
theorem parse_separated_nonempty_not_empty {α : Type} {item : P α} {delim : Tok}
    {ts : List Tok} {d : Delimited α} {rest : List Tok}
    (h : Delimited.parse_separated_nonempty item delim ts = some (d, rest)) :
    d.is_empty = false := by
  simp only [Delimited.parse_separated_nonempty] at h
  cases h1 : item ts with
  | none => simp only [h1] at h; cases h
  | some pr =>
    obtain ⟨a, ts1⟩ := pr
    simp only [h1] at h
    cases h2 : parseSepTailAux item delim a (ts1.length + 1) ts1 with
    | none => simp only [h2] at h; cases h
    | some pr2 =>
      obtain ⟨ps, ts2⟩ := pr2
      simp only [h2] at h
      obtain ⟨h3, h4⟩ := Prod.mk.injEq .. ▸ Option.some.inj h
      have hne : ps ≠ [] := parseSepTailAux_ne_nil h2
      cases ps with
      | nil => exact absurd rfl hne
      | cons q qs => simp [← h3, Delimited.is_empty]

/-- `parse_separated_nonempty` fails when the first item fails. -/
theorem parse_separated_nonempty_none {α : Type} {item : P α} {delim : Tok}
    {ts : List Tok} (h : item ts = none) :
    Delimited.parse_separated_nonempty item delim ts = none := by
  simp [Delimited.parse_separated_nonempty, h]

/-- C1 counterexample: the round trip fails at `<>`.  Parsing `<>` yields a
value with both bracket tokens present; the declaration view prints it as
zero tokens (empty generics are suppressed); re-parsing zero tokens yields
the all-default value, whose bracket-token fields are absent — so the
re-parsed value is not structurally equal to the original. -/
theorem c1_roundtrip_fails_on_empty_brackets :
    Generics.parse [Tok.lt, Tok.gt] = some (emptyBracketGenerics, []) ∧
    Generics.toTokens emptyBracketGenerics = [] ∧
    printReparse emptyBracketGenerics = some Generics.default ∧
    ¬ Generics.default = emptyBracketGenerics ∧
    parsePrintParse [Tok.lt, Tok.gt] = false := by
  refine ⟨by decide, by decide, by decide, by decide, by decide⟩

/-- C1 amended: the round trip parse(print(declaration-view(x))) == x holds
for x parsed from `<'a>`, `<'a,>`, `<'a, T: Clone>` and `<T = u8>`; for x
parsed from `<>` the printer emits zero tokens and re-parsing yields the
all-default value, which differs from x exactly in the two bracket-token
fields. -/
theorem c1_roundtrip_amended :
    parsePrintParse [Tok.lt, Tok.lifetimeTok "a", Tok.gt] = true ∧
    parsePrintParse [Tok.lt, Tok.lifetimeTok "a", Tok.comma, Tok.gt] = true ∧
    parsePrintParse [Tok.lt, Tok.lifetimeTok "a", Tok.comma, Tok.identTok "T",
      Tok.colon, Tok.identTok "Clone", Tok.gt] = true ∧
    parsePrintParse [Tok.lt, Tok.identTok "T", Tok.eqTok, Tok.identTok "u8", Tok.gt] = true ∧
    Generics.parse [Tok.lt, Tok.gt] = some (emptyBracketGenerics, []) ∧
    printReparse emptyBracketGenerics = some Generics.default ∧
    Generics.default = { emptyBracketGenerics with lt_token := none, gt_token := none } := by
  refine ⟨by decide, by decide, by decide, by decide, by decide, by decide, by decide⟩

/-- C8: the impl-site view of the value parsed from `<T = u8>` omits
`= u8`; the type-use-site view of the value parsed from
`<'a: 'b, T: Clone = u8>` prints exactly `<'a, T>`. -/
theorem c8_impl_and_type_views :
    (Generics.parse [Tok.lt, Tok.identTok "T", Tok.eqTok, Tok.identTok "u8", Tok.gt]).map
        (fun r => ImplGenerics.toTokens r.1) =
      some [Tok.lt, Tok.identTok "T", Tok.gt] ∧
    (Generics.parse [Tok.lt, Tok.lifetimeTok "a", Tok.colon, Tok.lifetimeTok "b", Tok.comma,
        Tok.identTok "T", Tok.colon, Tok.identTok "Clone", Tok.eqTok, Tok.identTok "u8",
        Tok.gt]).map (fun r => TypeGenerics.toTokens r.1) =
      some [Tok.lt, Tok.lifetimeTok "a", Tok.comma, Tok.identTok "T", Tok.gt] := by
  refine ⟨by decide, by decide⟩

/-- C9: the where-clause parser is labelled "where clause" as the claim
states, but the type-param-bound parser is labelled with the misspelled
string "type parameter buond", not "type parameter bound" — the label in
the source contradicts the claim's (clearly intended) spelling. -/
theorem c9_descriptions :
    WhereClause.description = some "where clause" ∧
    TypeParamBound.description = some "type parameter buond" ∧
    ¬ TypeParamBound.description = some "type parameter bound" := by
  refine ⟨rfl, rfl, by decide⟩

/-- C5: whenever both parameter lists are empty, all four rendering views
emit zero tokens, whatever the where-clause holds; and the turbofish view
of `<'a, T>` prints `::<'a, T>`. -/
theorem c5_empty_generics_zero_tokens :
    (∀ g : Generics, g.lifetimes.is_empty = true → g.ty_params.is_empty = true →
      Generics.toTokens g = [] ∧ ImplGenerics.toTokens g = [] ∧
      TypeGenerics.toTokens g = [] ∧ Turbofish.toTokens g = []) ∧
    (Generics.parse [Tok.lt, Tok.lifetimeTok "a", Tok.comma, Tok.identTok "T", Tok.gt]).map
        (fun r => Turbofish.toTokens r.1) =
      some [Tok.pathSep, Tok.lt, Tok.lifetimeTok "a", Tok.comma, Tok.identTok "T", Tok.gt] := by
  constructor
  · intro g h1 h2
    have he : empty_normal_generics g = true := by
      simp [empty_normal_generics, h1, h2]
    refine ⟨?_, ?_, ?_, ?_⟩ <;>
      simp [Generics.toTokens, ImplGenerics.toTokens, TypeGenerics.toTokens,
        Turbofish.toTokens, he]
  · decide

/-- C5 witness: the views of a `Generics` value whose parameter lists are
empty but whose where-clause is non-empty emit zero tokens. -/
theorem c5_witness :
    Generics.toTokens whereOnlyGenerics = [] ∧
    ImplGenerics.toTokens whereOnlyGenerics = [] ∧
    TypeGenerics.toTokens whereOnlyGenerics = [] ∧
    Turbofish.toTokens whereOnlyGenerics = [] :=
  c5_empty_generics_zero_tokens.1 whereOnlyGenerics rfl rfl

/-- C7: a `WhereClause` with the keyword present and no predicates is
constructible and distinct from the canonical empty clause, both print as
zero tokens, and in general the printer emits tokens iff the predicate
list is non-empty. -/
theorem c7_where_clause_elision :
    ¬ ({ where_token := some (), predicates := Delimited.new } : WhereClause) =
        WhereClause.default ∧
    WhereClause.toTokens { where_token := some (), predicates := Delimited.new } = [] ∧
    WhereClause.toTokens WhereClause.default = [] ∧
    (∀ wc : WhereClause, WhereClause.toTokens wc = [] ↔ wc.predicates.is_empty = true) := by
  refine ⟨by decide, by decide, by decide, ?_⟩
  intro wc
  cases h : wc.predicates.is_empty with
  | true => simp [WhereClause.toTokens, h]
  | false => simp [WhereClause.toTokens, h, tokensOrDefault_eq]

/-- C7 witness: the keyword-present, zero-predicate clause prints as zero
tokens. -/
theorem c7_witness :
    WhereClause.toTokens ⟨some (), Delimited.new⟩ = [] :=
  (c7_where_clause_elision.2.2.2 ⟨some (), Delimited.new⟩).mpr rfl

/-- The first where-predicate alternative only builds `RegionPredicate`. -/
theorem regionBranch_shape {ts : List Tok} {p : WherePredicate} {rest : List Tok}
    (h : WherePredicate.regionBranch ts = some (p, rest)) :
    ∃ r, p = WherePredicate.RegionPredicate r := by
  simp only [WherePredicate.regionBranch] at h
  cases h1 : Lifetime.parse ts with
  | none => simp only [h1] at h; cases h
  | some pr =>
    obtain ⟨l, ts1⟩ := pr
    simp only [h1] at h
    cases h2 : popt (punct Tok.colon) ts1 with
    | none => simp only [h2] at h; cases h
    | some pr2 =>
      obtain ⟨colon, ts2⟩ := pr2
      simp only [h2] at h
      cases h3 : pcond colon.isSome (Delimited.parse_separated Lifetime.parse Tok.plus) ts2 with
      | none => simp only [h3] at h; cases h
      | some pr3 =>
        obtain ⟨bounds, ts3⟩ := pr3
        simp only [h3] at h
        obtain ⟨h4, h5⟩ := Prod.mk.injEq .. ▸ Option.some.inj h
        exact ⟨_, h4.symm⟩

/-- The second where-predicate alternative only builds `BoundPredicate`. -/
theorem boundBranch_shape {ts : List Tok} {p : WherePredicate} {rest : List Tok}
    (h : WherePredicate.boundBranch ts = some (p, rest)) :
    ∃ b, p = WherePredicate.BoundPredicate b := by
  simp only [WherePredicate.boundBranch] at h
  cases h1 : popt BoundLifetimes.parse ts with
  | none => simp only [h1] at h; cases h
  | some pr =>
    obtain ⟨bl, ts1⟩ := pr
    simp only [h1] at h
    cases h2 : Ty.parse ts1 with
    | none => simp only [h2] at h; cases h
    | some pr2 =>
      obtain ⟨ty, ts2⟩ := pr2
      simp only [h2] at h
      cases h3 : punct Tok.colon ts2 with
      | none => simp only [h3] at h; cases h
      | some pr3 =>
        obtain ⟨u, ts3⟩ := pr3
        simp only [h3] at h
        cases h4 : Delimited.parse_separated_nonempty TypeParamBound.parse Tok.plus ts3 with
        | none => simp only [h4] at h; cases h
        | some pr4 =>
          obtain ⟨bounds, ts4⟩ := pr4
          simp only [h4] at h
          obtain ⟨h5, h6⟩ := Prod.mk.injEq .. ▸ Option.some.inj h
          exact ⟨_, h5.symm⟩

/-- C6: every value the where-predicate parser produces is a
`BoundPredicate` or a `RegionPredicate`, never an `EqPredicate`. -/
theorem c6_never_eq_predicate (ts : List Tok) (p : WherePredicate) (rest : List Tok)
    (h : WherePredicate.parse ts = some (p, rest)) :
    ∀ q, ¬ p = WherePredicate.EqPredicate q := by
  intro q
  simp only [WherePredicate.parse] at h
  cases h1 : WherePredicate.regionBranch ts with
  | some pr =>
    obtain ⟨p0, r0⟩ := pr
    simp only [h1] at h
    obtain ⟨h2, h3⟩ := Prod.mk.injEq .. ▸ Option.some.inj h
    obtain ⟨r, hr⟩ := regionBranch_shape h1
    rw [← h2, hr]
    simp
  | none =>
    simp only [h1] at h
    obtain ⟨b, hb⟩ := boundBranch_shape h
    rw [hb]
    simp

/-- C6 witness: parsing the single lifetime token of `'a` as a where
predicate produces a `RegionPredicate`, which is not an `EqPredicate`. -/
theorem c6_witness :
    WherePredicate.parse [Tok.lifetimeTok "a"] =
      some (WherePredicate.RegionPredicate ⟨⟨"a"⟩, none, Delimited.new⟩, []) ∧
    ¬ WherePredicate.RegionPredicate ⟨⟨"a"⟩, none, Delimited.new⟩ =
        WherePredicate.EqPredicate ⟨⟨"x"⟩, (), ⟨"y"⟩⟩ :=
  ⟨by decide, c6_never_eq_predicate [Tok.lifetimeTok "a"] _ [] (by decide) _⟩

/-- C3: the `LifetimeDef` and `TypeParam` parsers never produce a value
whose colon token is present with an empty bound list (colon absent forces
empty bounds, colon present forces non-empty bounds), and an input whose
core token is followed by a colon with zero bounds is rejected. -/
theorem c3_colon_gates_bounds :
    (∀ ts d rest, LifetimeDef.parse ts = some (d, rest) →
      (d.colon_token = none → d.bounds.is_empty = true) ∧
      (¬ d.colon_token = none → d.bounds.is_empty = false)) ∧
    (∀ ts tp rest, TypeParam.parse ts = some (tp, rest) →
      (tp.colon_token = none → tp.bounds.is_empty = true) ∧
      (¬ tp.colon_token = none → tp.bounds.is_empty = false)) ∧
    (∀ s rest, Lifetime.parse rest = none →
      LifetimeDef.parse (Tok.lifetimeTok s :: Tok.colon :: rest) = none) ∧
    (∀ s rest, TypeParamBound.parse rest = none →
      TypeParam.parse (Tok.identTok s :: Tok.colon :: rest) = none) := by
  refine ⟨?_, ?_, ?_, ?_⟩
  · intro ts d rest h
    simp only [LifetimeDef.parse] at h
    cases h1 : many0 Attribute.parse_outer ts with
    | none => simp only [h1] at h; cases h
    | some pr =>
      obtain ⟨attrs, ts1⟩ := pr
      simp only [h1] at h
      cases h2 : Lifetime.parse ts1 with
      | none => simp only [h2] at h; cases h
      | some pr2 =>
        obtain ⟨life, ts2⟩ := pr2
        simp only [h2] at h
        cases h3 : popt (punct Tok.colon) ts2 with
        | none => simp only [h3] at h; cases h
        | some pr3 =>
          obtain ⟨colon, ts3⟩ := pr3
          simp only [h3] at h
          cases colon with
          | none =>
            simp only [pcond, Option.isSome, Bool.false_eq_true, if_false] at h
            obtain ⟨h5, h6⟩ := Prod.mk.injEq .. ▸ Option.some.inj h
            rw [← h5]
            exact ⟨fun _ => rfl, fun hc => absurd rfl hc⟩
          | some u =>
            simp only [pcond, Option.isSome, if_true] at h
            cases h4 : Delimited.parse_separated_nonempty Lifetime.parse Tok.plus ts3 with
            | none => simp only [h4] at h; cases h
            | some pr4 =>
              obtain ⟨bounds, ts4⟩ := pr4
              simp only [h4] at h
              obtain ⟨h5, h6⟩ := Prod.mk.injEq .. ▸ Option.some.inj h
              rw [← h5]
              refine ⟨fun hc => ?_, fun _ => ?_⟩
              · exact absurd hc (by simp)
              · simpa using parse_separated_nonempty_not_empty h4
  · intro ts tp rest h
    simp only [TypeParam.parse] at h
    cases h1 : many0 Attribute.parse_outer ts with
    | none => simp only [h1] at h; cases h
    | some pr =>
      obtain ⟨attrs, ts1⟩ := pr
      simp only [h1] at h
      cases h2 : Ident.parse ts1 with
      | none => simp only [h2] at h; cases h
      | some pr2 =>
        obtain ⟨id, ts2⟩ := pr2
        simp only [h2] at h
        cases h3 : popt (punct Tok.colon) ts2 with
        | none => simp only [h3] at h; cases h
        | some pr3 =>
          obtain ⟨colon, ts3⟩ := pr3
          simp only [h3] at h
          cases colon with
          | none =>
            simp only [pcond, Option.isSome, Bool.false_eq_true, if_false] at h
            cases h4 : popt TypeParam.defaultPart ts3 with
            | none => simp only [h4] at h; cases h
            | some pr4 =>
              obtain ⟨dflt, ts4⟩ := pr4
              simp only [h4] at h
              obtain ⟨h5, h6⟩ := Prod.mk.injEq .. ▸ Option.some.inj h
              rw [← h5]
              exact ⟨fun _ => rfl, fun hc => absurd rfl hc⟩
          | some u =>
            simp only [pcond, Option.isSome, if_true] at h
            cases h4 : Delimited.parse_separated_nonempty TypeParamBound.parse Tok.plus ts3 with
            | none => simp only [h4] at h; cases h
            | some pr4 =>
              obtain ⟨bounds, ts4⟩ := pr4
              simp only [h4] at h
              cases h5 : popt TypeParam.defaultPart ts4 with
              | none => simp only [h5] at h; cases h
              | some pr5 =>
                obtain ⟨dflt, ts5⟩ := pr5
                simp only [h5] at h
                obtain ⟨h6, h7⟩ := Prod.mk.injEq .. ▸ Option.some.inj h
                rw [← h6]
                refine ⟨fun hc => ?_, fun _ => ?_⟩
                · exact absurd hc (by simp)
                · simpa using parse_separated_nonempty_not_empty h4
  · intro s rest h
    have hm := @many0_none _ Attribute.parse_outer (Tok.lifetimeTok s :: Tok.colon :: rest) rfl
    have hp : popt (punct Tok.colon) (Tok.colon :: rest) = some (some (), rest) := by
      simp [popt, punct]
    simp only [LifetimeDef.parse, hm, Lifetime.parse, hp, pcond, Option.isSome, if_true,
      parse_separated_nonempty_none h]
  · intro s rest h
    have hm := @many0_none _ Attribute.parse_outer (Tok.identTok s :: Tok.colon :: rest) rfl
    have hp : popt (punct Tok.colon) (Tok.colon :: rest) = some (some (), rest) := by
      simp [popt, punct]
    simp only [TypeParam.parse, hm, Ident.parse, hp, pcond, Option.isSome, if_true,
      parse_separated_nonempty_none h]

/-- C3 witness: `'a:` with no following bound fails, `T:` with no
following bound fails, and a parsed plain `'a` carries no colon and empty
bounds. -/
theorem c3_witness :
    LifetimeDef.parse [Tok.lifetimeTok "a", Tok.colon, Tok.gt] = none ∧
    TypeParam.parse [Tok.identTok "T", Tok.colon, Tok.gt] = none ∧
    Delimited.is_empty (⟨[], ⟨"a"⟩, none, Delimited.new⟩ : LifetimeDef).bounds = true :=
  ⟨c3_colon_gates_bounds.2.2.1 "a" [Tok.gt] rfl,
   c3_colon_gates_bounds.2.2.2 "T" [Tok.gt] (by decide),
   (c3_colon_gates_bounds.1 [Tok.lifetimeTok "a"] ⟨[], ⟨"a"⟩, none, Delimited.new⟩ []
     (by decide)).1 rfl⟩

/-- The bracketed branch of the `Generics` parser fails unless the input
starts with the opening bracket. -/
theorem bracketed_none {ts : List Tok} (h : ¬ ts.head? = some Tok.lt) :
    Generics.bracketed ts = none := by
  cases ts with
  | nil => rfl
  | cons a as =>
    have ha : ¬ a = Tok.lt := by simpa using h
    simp [Generics.bracketed, punct, ha]

/-- Dissection of a successful bracketed `Generics` parse: the opening
bracket was consumed, the lifetime list was parsed terminated, the
type-param list was attempted exactly when the lifetime list was empty or
trailing, and the closing bracket immediately followed. -/
theorem bracketed_shape {ts : List Tok} {g : Generics} {ts2 : List Tok}
    (h : Generics.bracketed ts = some (g, ts2)) :
    g.lt_token = some () ∧ g.gt_token = some () ∧ g.where_clause = WhereClause.default ∧
    ∃ rest ts1, ts = Tok.lt :: rest ∧
      Delimited.parse_terminated LifetimeDef.parse Tok.comma rest = some (g.lifetimes, ts1) ∧
      (if g.lifetimes.is_empty || g.lifetimes.trailing_delim then
        Delimited.parse_terminated TypeParam.parse Tok.comma ts1 = some (g.ty_params, Tok.gt :: ts2)
      else g.ty_params = Delimited.new ∧ ts1 = Tok.gt :: ts2) := by
  simp only [Generics.bracketed] at h
  cases h1 : punct Tok.lt ts with
  | none => simp only [h1] at h; cases h
  | some pr =>
    obtain ⟨u, rest⟩ := pr
    have hts := punct_some h1
    simp only [h1] at h
    cases h2 : Delimited.parse_terminated LifetimeDef.parse Tok.comma rest with
    | none => simp only [h2] at h; cases h
    | some pr2 =>
      obtain ⟨L, ts1⟩ := pr2
      simp only [h2] at h
      cases hc : (L.is_empty || L.trailing_delim) with
      | false =>
        simp only [pcond, hc, Bool.false_eq_true, if_false] at h
        cases h4 : punct Tok.gt ts1 with
        | none => simp only [h4] at h; cases h
        | some pr4 =>
          obtain ⟨u2, ts4⟩ := pr4
          have hts1 := punct_some h4
          simp only [h4] at h
          obtain ⟨h5, h6⟩ := Prod.mk.injEq .. ▸ Option.some.inj h
          subst h6
          rw [← h5]
          refine ⟨rfl, rfl, rfl, rest, ts1, hts, h2, ?_⟩
          simp only [hc, Bool.false_eq_true, if_false]
          exact ⟨rfl, hts1⟩
      | true =>
        simp only [pcond, hc, if_true] at h
        cases h3 : Delimited.parse_terminated TypeParam.parse Tok.comma ts1 with
        | none => simp only [h3] at h; cases h
        | some pr3 =>
          obtain ⟨TP, ts3⟩ := pr3
          simp only [h3] at h
          cases h4 : punct Tok.gt ts3 with
          | none => simp only [h4] at h; cases h
          | some pr4 =>
            obtain ⟨u2, ts4⟩ := pr4
            have hts3 := punct_some h4
            simp only [h4] at h
            obtain ⟨h5, h6⟩ := Prod.mk.injEq .. ▸ Option.some.inj h
            subst h6
            rw [← h5]
            refine ⟨rfl, rfl, rfl, rest, ts1, hts, h2, ?_⟩
            simp only [hc, if_true]
            rw [← hts3]
            exact h3

/-- C2: the `Generics` parser always succeeds; with no opening bracket it
consumes nothing and returns the all-default value; when the bracketed
branch commits (bracket tokens present in the result), it parsed a
terminated lifetime list, attempted the terminated type-param list exactly
when the lifetime list was empty or trailing (leaving it empty otherwise),
and required the closing bracket. -/
theorem c2_generics_parse :
    (∀ ts, ∃ g ts2, Generics.parse ts = some (g, ts2)) ∧
    (∀ ts, ¬ ts.head? = some Tok.lt → Generics.parse ts = some (Generics.default, ts)) ∧
    (∀ rest g ts2, Generics.parse (Tok.lt :: rest) = some (g, ts2) → g.lt_token = some () →
      g.gt_token = some () ∧ g.where_clause = WhereClause.default ∧
      ∃ ts1, Delimited.parse_terminated LifetimeDef.parse Tok.comma rest = some (g.lifetimes, ts1) ∧
        (if g.lifetimes.is_empty || g.lifetimes.trailing_delim then
          Delimited.parse_terminated TypeParam.parse Tok.comma ts1 = some (g.ty_params, Tok.gt :: ts2)
        else g.ty_params = Delimited.new ∧ ts1 = Tok.gt :: ts2)) := by
  refine ⟨?_, ?_, ?_⟩
  · intro ts
    simp only [Generics.parse]
    cases hb : Generics.bracketed ts with
    | none => exact ⟨Generics.default, ts, rfl⟩
    | some pr =>
      obtain ⟨g0, r0⟩ := pr
      exact ⟨g0, r0, rfl⟩
  · intro ts h
    have hb := bracketed_none h
    simp [Generics.parse, hb]
  · intro rest g ts2 hp hlt
    simp only [Generics.parse] at hp
    cases hb : Generics.bracketed (Tok.lt :: rest) with
    | none =>
      simp only [hb] at hp
      obtain ⟨h5, h6⟩ := Prod.mk.injEq .. ▸ Option.some.inj hp
      rw [← h5] at hlt
      exact Option.noConfusion hlt
    | some pr =>
      obtain ⟨g0, r0⟩ := pr
      simp only [hb] at hp
      obtain ⟨h5, h6⟩ := Prod.mk.injEq .. ▸ Option.some.inj hp
      subst h5
      subst h6
      obtain ⟨hl, hg, hw, rest2, ts1, hts, hlife, hcase⟩ := bracketed_shape hb
      injection hts with _ hr
      subst hr
      exact ⟨hg, hw, ts1, hlife, hcase⟩

/-- C2 witness: with no opening bracket, parsing consumes nothing and
returns the all-default `Generics`. -/
theorem c2_witness :
    Generics.parse [Tok.comma] = some (Generics.default, [Tok.comma]) :=
  c2_generics_parse.2.1 [Tok.comma] (by decide)

/-- C4: in each printing view, the synthetic delimiter between the two
parameter lists is exactly one comma when the lifetime list is non-empty
without a trailing delimiter and the type-param list is non-empty, and
nothing otherwise; each non-empty view decomposes as opening bracket,
lifetime list, synthetic delimiter, type-param list, closing bracket. -/
theorem c4_synthetic_comma (g : Generics) :
    (∀ tokens, maybe_add_lifetime_params_comma tokens g = tokens ++ syntheticComma g) ∧
    (empty_normal_generics g = false →
      Generics.toTokens g =
        [Tok.lt] ++ Delimited.toTokens LifetimeDef.toTokens Tok.comma g.lifetimes ++
          syntheticComma g ++ Delimited.toTokens TypeParam.toTokens Tok.comma g.ty_params ++
          [Tok.gt] ∧
      ImplGenerics.toTokens g =
        [Tok.lt] ++ Delimited.toTokens LifetimeDef.toTokens Tok.comma g.lifetimes ++
          syntheticComma g ++ ImplGenerics.tyParamsTokens g ++ [Tok.gt] ∧
      TypeGenerics.toTokens g =
        [Tok.lt] ++ TypeGenerics.lifetimesTokens g ++ syntheticComma g ++
          TypeGenerics.tyParamsTokens g ++ [Tok.gt] ∧
      Turbofish.toTokens g = Tok.pathSep :: TypeGenerics.toTokens g) := by
  have hsyn : ∀ tokens, maybe_add_lifetime_params_comma tokens g = tokens ++ syntheticComma g := by
    intro tokens
    cases hl : g.lifetimes.is_empty <;> cases ht : g.lifetimes.trailing_delim <;>
      cases hp : g.ty_params.is_empty <;>
      simp [maybe_add_lifetime_params_comma, syntheticComma, Delimited.empty_or_trailing,
        hl, ht, hp]
  refine ⟨hsyn, fun he => ⟨?_, ?_, ?_, ?_⟩⟩
  · simp only [Generics.toTokens, he, Bool.false_eq_true, if_false, hsyn, tokensOrDefault_eq]
  · simp only [ImplGenerics.toTokens, he, Bool.false_eq_true, if_false, hsyn, tokensOrDefault_eq]
  · simp only [TypeGenerics.toTokens, he, Bool.false_eq_true, if_false, hsyn, tokensOrDefault_eq]
  · simp [Turbofish.toTokens, he]

/-- C4 witness: for `<'a, T>` — one non-trailing lifetime and one type
parameter — the declaration view inserts exactly one synthetic comma
between the lists. -/
theorem c4_witness :
    empty_normal_generics exampleLifetimeTyGenerics = false ∧
    maybe_add_lifetime_params_comma [] exampleLifetimeTyGenerics =
      [] ++ syntheticComma exampleLifetimeTyGenerics ∧
    Generics.toTokens exampleLifetimeTyGenerics =
      [Tok.lt] ++
        Delimited.toTokens LifetimeDef.toTokens Tok.comma exampleLifetimeTyGenerics.lifetimes ++
        syntheticComma exampleLifetimeTyGenerics ++
        Delimited.toTokens TypeParam.toTokens Tok.comma exampleLifetimeTyGenerics.ty_params ++
        [Tok.gt] :=
  ⟨by decide, (c4_synthetic_comma exampleLifetimeTyGenerics).1 [],
   ((c4_synthetic_comma exampleLifetimeTyGenerics).2 (by decide)).1⟩

/-- C10: for `LifetimeDef`, `TypeParam` and `WhereRegionPredicate` —
including directly constructed values breaking the parser invariant — the
printed output never depends on the stored colon token, and a colon is
emitted exactly when the bound list is non-empty (a stored colon with
empty bounds is dropped; a missing colon with non-empty bounds is
synthesized). -/
theorem c10_printer_colon_iff_bounds :
    (∀ (d : LifetimeDef) (c : Option Unit),
      LifetimeDef.toTokens { d with colon_token := c } = LifetimeDef.toTokens d) ∧
    (∀ d : LifetimeDef,
      (d.bounds.is_empty = true →
        LifetimeDef.toTokens d = outerAttrsTokens d.attrs ++ d.lifetime.toTokens) ∧
      (d.bounds.is_empty = false →
        LifetimeDef.toTokens d = outerAttrsTokens d.attrs ++ d.lifetime.toTokens ++
          [Tok.colon] ++ Delimited.toTokens Lifetime.toTokens Tok.plus d.bounds)) ∧
    (∀ (tp : TypeParam) (c : Option Unit),
      TypeParam.toTokens { tp with colon_token := c } = TypeParam.toTokens tp) ∧
    (∀ tp : TypeParam,
      (tp.bounds.is_empty = true →
        TypeParam.toTokens tp = outerAttrsTokens tp.attrs ++ [Tok.identTok tp.ident] ++
          TypeParam.defaultTokens tp) ∧
      (tp.bounds.is_empty = false →
        TypeParam.toTokens tp = outerAttrsTokens tp.attrs ++ [Tok.identTok tp.ident] ++
          [Tok.colon] ++ Delimited.toTokens TypeParamBound.toTokens Tok.plus tp.bounds ++
          TypeParam.defaultTokens tp)) ∧
    (∀ (wp : WhereRegionPredicate) (c : Option Unit),
      WhereRegionPredicate.toTokens { wp with colon_token := c } =
        WhereRegionPredicate.toTokens wp) ∧
    (∀ wp : WhereRegionPredicate,
      (wp.bounds.is_empty = true → WhereRegionPredicate.toTokens wp = wp.lifetime.toTokens) ∧
      (wp.bounds.is_empty = false →
        WhereRegionPredicate.toTokens wp = wp.lifetime.toTokens ++ [Tok.colon] ++
          Delimited.toTokens Lifetime.toTokens Tok.plus wp.bounds)) := by
  refine ⟨?_, ?_, ?_, ?_, ?_, ?_⟩
  · intro d c
    simp [LifetimeDef.toTokens, tokensOrDefault_eq]
  · intro d
    constructor <;> intro hb <;>
      simp [LifetimeDef.toTokens, hb, tokensOrDefault_eq, List.append_assoc]
  · intro tp c
    simp [TypeParam.toTokens, tokensOrDefault_eq]
  · intro tp
    constructor <;> intro hb <;> cases hd : tp.default <;>
      simp [TypeParam.toTokens, TypeParam.defaultTokens, hb, hd, tokensOrDefault_eq,
        List.append_assoc, Ty.toTokens]
  · intro wp c
    simp [WhereRegionPredicate.toTokens, tokensOrDefault_eq]
  · intro wp
    constructor <;> intro hb <;>
      simp [WhereRegionPredicate.toTokens, hb, tokensOrDefault_eq, List.append_assoc]

/-- C10 witness: a directly constructed `LifetimeDef` with a colon token
but empty bounds prints without the colon, and its print does not change
when the colon token is removed. -/
theorem c10_witness :
    LifetimeDef.toTokens colonNoBoundsLifetimeDef = [Tok.lifetimeTok "a"] ∧
    LifetimeDef.toTokens { colonNoBoundsLifetimeDef with colon_token := none } =
      LifetimeDef.toTokens colonNoBoundsLifetimeDef :=
  ⟨(c10_printer_colon_iff_bounds.2.1 colonNoBoundsLifetimeDef).1 rfl,
   c10_printer_colon_iff_bounds.1 colonNoBoundsLifetimeDef none⟩

end Syn
